import Mathlib

/-!
Shallow embedding of the contest black-box test harness.

Source files embedded here:
* `contest/TestCase.py` — `TestCase.check_streams` (emptiness check, line
  window loop over `zip_longest`, stride-of-5 mismatch localisation) and
  `TestCase.execute` (timeout handling, return-code check, stream checks,
  ofstream phase, plugin checks).
* `contest/runner.py` — `filter_tests` and the suite orchestration in
  `test()` (per-case `int(errors > 0)` collapse, summation, tally line).

Strings are modelled as `List Char` (a Python line keeps its trailing
newline), streams as `List (List Char)`, machine integers as `Int`/`Nat`
(no overflow is involved), and Python exceptions as `Except`.
-/

namespace Contest

/-- Source (`TestCase.check_streams`, the `for idx, (a, b) in
enumerate(zip(s1, s2))` loop with its `else` clause): index of the first
differing character of the two 5-character windows, or
`min s1.length s2.length` when the zipped prefix is entirely equal. -/
def scanPair : List Char → List Char → Nat
  | a :: s1, b :: s2 => if a = b then scanPair s1 s2 + 1 else 0
  | _, _ => 0

/-- Spec-side notion: the first character index at which two lines differ,
i.e. the length of their longest common prefix; when one line is a strict
prefix of the other this is the length of the shorter line. -/
def firstDiffIndex : List Char → List Char → Nat
  | a :: s1, b :: s2 => if a = b then firstDiffIndex s1 s2 + 1 else 0
  | _, _ => 0

/-- Source (`TestCase.check_streams`, the `while True` stride loop): compare
the 5-character windows `e[i:i+5]` and `r[i:i+5]`; on the first differing
window add the inner scan result to `i` and break, otherwise advance `i` by
5. The explicit fuel models the unbounded `while True`: `none` means the
fuel ran out without reaching the break. -/
def strideLoop : Nat → List Char → List Char → Nat → Option Nat
  | 0, _, _, _ => none
  | fuel + 1, e, r, i =>
    if (e.drop i).take 5 = (r.drop i).take 5 then strideLoop fuel e r (i + 5)
    else some (i + scanPair ((e.drop i).take 5) ((r.drop i).take 5))

/-- Source: the caret offset computed by `check_streams` for an unequal
pair, starting the stride loop at `i = 0` with fuel covering both lines. -/
def strideOffset (e r : List Char) : Option Nat :=
  strideLoop (max e.length r.length / 5 + 1) e r 0

@[simp] theorem firstDiffIndex_nil_left (b : List Char) : firstDiffIndex [] b = 0 := by
  cases b <;> rfl

@[simp] theorem firstDiffIndex_nil_right (a : List Char) : firstDiffIndex a [] = 0 := by
  cases a <;> rfl

@[simp] theorem firstDiffIndex_cons (a b : Char) (s1 s2 : List Char) :
    firstDiffIndex (a :: s1) (b :: s2) =
      if a = b then firstDiffIndex s1 s2 + 1 else 0 := rfl

theorem scanPair_eq_firstDiffIndex : ∀ a b : List Char, scanPair a b = firstDiffIndex a b
  | [], [] => rfl
  | [], _ :: _ => rfl
  | _ :: _, [] => rfl
  | a :: s1, b :: s2 => by
    show (if a = b then scanPair s1 s2 + 1 else 0) = _
    rw [firstDiffIndex_cons, scanPair_eq_firstDiffIndex s1 s2]

theorem firstDiffIndex_le_left : ∀ a b : List Char, firstDiffIndex a b ≤ a.length
  | [], _ => by simp
  | _ :: _, [] => by simp
  | a :: s1, b :: s2 => by
    rw [firstDiffIndex_cons]
    split
    · exact Nat.succ_le_succ (firstDiffIndex_le_left s1 s2)
    · exact Nat.zero_le _

theorem firstDiffIndex_le_right : ∀ a b : List Char, firstDiffIndex a b ≤ b.length
  | [], _ => by simp
  | _ :: _, [] => by simp
  | a :: s1, b :: s2 => by
    rw [firstDiffIndex_cons]
    split
    · exact Nat.succ_le_succ (firstDiffIndex_le_right s1 s2)
    · exact Nat.zero_le _

theorem firstDiffIndex_self : ∀ a : List Char, firstDiffIndex a a = a.length
  | [] => rfl
  | a :: s1 => by
    rw [firstDiffIndex_cons, if_pos rfl, firstDiffIndex_self s1, List.length_cons]

theorem eq_of_firstDiffIndex : ∀ a b : List Char,
    firstDiffIndex a b = a.length → a.length = b.length → a = b
  | [], [], _, _ => rfl
  | [], _ :: _, _, h2 => by simp at h2
  | _ :: _, [], _, h2 => by simp at h2
  | a :: s1, b :: s2, h1, h2 => by
    rw [firstDiffIndex_cons] at h1
    simp only [List.length_cons] at h1 h2
    split at h1
    · next hab =>
      rw [hab, eq_of_firstDiffIndex s1 s2 (by omega) (by omega)]
    · omega

theorem firstDiffIndex_take : ∀ (n : Nat) (a b : List Char),
    firstDiffIndex (a.take n) (b.take n) = min n (firstDiffIndex a b)
  | 0, _, _ => by simp
  | _ + 1, [], _ => by simp
  | _ + 1, _ :: _, [] => by simp
  | n + 1, a :: s1, b :: s2 => by
    simp only [List.take_succ_cons, firstDiffIndex_cons]
    split
    · rw [firstDiffIndex_take n s1 s2]; omega
    · simp

theorem firstDiffIndex_drop : ∀ (i : Nat) (a b : List Char), i ≤ firstDiffIndex a b →
    firstDiffIndex (a.drop i) (b.drop i) = firstDiffIndex a b - i
  | 0, _, _, _ => by simp
  | _ + 1, [], _, h => by simp at h
  | _ + 1, _ :: _, [], h => by simp at h
  | i + 1, a :: s1, b :: s2, h => by
    rw [firstDiffIndex_cons] at h ⊢
    split at h
    · next hab =>
      rw [if_pos hab, List.drop_succ_cons, List.drop_succ_cons,
        firstDiffIndex_drop i s1 s2 (by omega)]
      omega
    · omega

theorem stride_window_eq (a b : List Char) (i : Nat)
    (h5 : i + 5 ≤ firstDiffIndex a b) :
    (a.drop i).take 5 = (b.drop i).take 5 := by
  have h1 := firstDiffIndex_le_left a b
  have h2 := firstDiffIndex_le_right a b
  have ht := firstDiffIndex_take 5 (a.drop i) (b.drop i)
  have hd := firstDiffIndex_drop i a b (by omega)
  rw [hd] at ht
  apply eq_of_firstDiffIndex
  · rw [ht]; simp; omega
  · simp; omega

theorem stride_window_ne (a b : List Char) (i : Nat) (hne : a ≠ b)
    (hle : i ≤ firstDiffIndex a b) (hlt : firstDiffIndex a b < i + 5) :
    (a.drop i).take 5 ≠ (b.drop i).take 5 ∧
      scanPair ((a.drop i).take 5) ((b.drop i).take 5) = firstDiffIndex a b - i := by
  have h1 := firstDiffIndex_le_left a b
  have h2 := firstDiffIndex_le_right a b
  have ht := firstDiffIndex_take 5 (a.drop i) (b.drop i)
  have hd := firstDiffIndex_drop i a b hle
  rw [hd] at ht
  constructor
  · intro heq
    have hself : firstDiffIndex ((a.drop i).take 5) ((b.drop i).take 5) =
        ((a.drop i).take 5).length := by
      rw [heq, firstDiffIndex_self]
    rw [ht] at hself
    have hla : ((a.drop i).take 5).length = min 5 (a.length - i) := by simp
    have hlb : ((b.drop i).take 5).length = min 5 (b.length - i) := by simp
    have hlab : ((a.drop i).take 5).length = ((b.drop i).take 5).length := by rw [heq]
    exact hne (eq_of_firstDiffIndex a b (by omega) (by omega))
  · rw [scanPair_eq_firstDiffIndex, ht]
    omega

theorem strideLoop_reaches (e r : List Char) (hne : e ≠ r) :
    ∀ (fuel i : Nat), i ≤ firstDiffIndex e r → firstDiffIndex e r < i + 5 * fuel →
      strideLoop fuel e r i = some (firstDiffIndex e r)
  | 0, _, hle, hlt => by omega
  | fuel + 1, i, hle, hlt => by
    by_cases h5 : i + 5 ≤ firstDiffIndex e r
    · have hw := stride_window_eq e r i h5
      rw [strideLoop, if_pos hw]
      exact strideLoop_reaches e r hne fuel (i + 5) h5 (by omega)
    · have hw := stride_window_ne e r i hne hle (by omega)
      rw [strideLoop, if_neg hw.1, hw.2]
      congr 1
      omega

/-- C1: for every unequal pair of lines (a missing side already replaced by
the empty string) that first differ at character index `k`
(`firstDiffIndex`), the stride-of-5 localisation of `check_streams`
computes the offset exactly `k`, covering `k = 0` and the strict-prefix
boundary `k = length of the shorter line`. -/
theorem check_streams_offset_exact (e r : List Char) (hne : e ≠ r) :
    strideOffset e r = some (firstDiffIndex e r) := by
  have h1 := firstDiffIndex_le_left e r
  have hmax : e.length ≤ max e.length r.length := Nat.le_max_left _ _
  exact strideLoop_reaches e r hne _ 0 (Nat.zero_le _) (by omega)

/-- Witness for C1: the lines ab and ac first differ at index 1 and the
stride search reports offset 1. -/
theorem check_streams_offset_exact_witness :
    (['a', 'b'] : List Char) ≠ ['a', 'c'] ∧
      strideOffset ['a', 'b'] ['a', 'c'] = some 1 := by
  refine ⟨by decide, ?_⟩
  exact (check_streams_offset_exact ['a', 'b'] ['a', 'c'] (by decide)).trans (by decide)

/-- C10: for distinct lines (after empty-string padding of a missing side)
the stride-of-5 loop terminates: with fuel covering both lines it reaches
its break and returns an offset instead of advancing by 5 forever. -/
theorem stride_loop_terminates (e r : List Char) (hne : e ≠ r) (fuel : Nat)
    (hfuel : max e.length r.length / 5 + 1 ≤ fuel) :
    ∃ k, strideLoop fuel e r 0 = some k := by
  refine ⟨firstDiffIndex e r, ?_⟩
  have h1 := firstDiffIndex_le_left e r
  have hmax : e.length ≤ max e.length r.length := Nat.le_max_left _ _
  exact strideLoop_reaches e r hne fuel 0 (Nat.zero_le _) (by omega)

/-- Witness for C10: on the strict-prefix pair a versus the empty line,
fuel 1 already suffices for the loop to break. -/
theorem stride_loop_terminates_witness :
    (['a'] : List Char) ≠ [] ∧ ∃ k, strideLoop 1 ['a'] [] 0 = some k :=
  ⟨by decide, stride_loop_terminates ['a'] [] (by decide) 1 (by decide)⟩

/-- Source (`TestCase._setup_ostream` / `check_streams`): an output-stream
expectation. `text` is the list of expected lines (each keeping its
newline), `start` the 0-based index at which comparison begins (default 0),
`count` the number of lines to compare (default -1 = unbounded), `empty`
the optional emptiness assertion, `file` an optional reference-file path
whose lines replace `text` in `execute` (ignored by `check_streams`). -/
structure OutStream where
  text : List (List Char)
  start : Nat
  count : Int
  empty : Option Bool
  file : Option (List Char)
deriving DecidableEq

/-- Source: `itertools.zip_longest` with the default fill value `None`. -/
def zipLongest : List α → List β → List (Option α × Option β)
  | [], bs => bs.map fun b => (none, some b)
  | a :: as, [] => (some a, none) :: zipLongest as []
  | a :: as, b :: bs => (some a, some b) :: zipLongest as bs

/-- Source (`TestCase.check_streams`, the `for line_number, (e, r) in
enumerate(zip_longest(...))` loop): skip pairs with index below `start`;
return 1 on the first unequal pair (the caret offset printed there is
modelled by `strideOffset` on the empty-string-padded pair); break with 0
once `line_number - start + 1 == count`; return 0 on exhaustion. -/
def checkLoop (start : Nat) (count : Int) :
    Nat → List (Option (List Char) × Option (List Char)) → Nat
  | _, [] => 0
  | n, p :: rest =>
    if n < start then checkLoop start count (n + 1) rest
    else if p.1 ≠ p.2 then 1
    else if (n : Int) - (start : Int) + 1 = count then 0
    else checkLoop start count (n + 1) rest

/-- Source (`TestCase.check_streams`): the emptiness assertion returns 1
when violated (asserted empty but output present, or asserted nonempty but
output absent) and otherwise falls through to the line-by-line loop. -/
def checkStreams (expected : OutStream) (received : List (List Char)) : Nat :=
  match expected.empty with
  | some b =>
    if b ∧ received ≠ [] then 1
    else if ¬b ∧ received = [] then 1
    else checkLoop expected.start expected.count 0 (zipLongest expected.text received)
  | none => checkLoop expected.start expected.count 0 (zipLongest expected.text received)

/-- C2 counterexample: with the window start=1, count=1, text=[b] and
actual lines [a, b, c], `check_streams` pairs text index-aligned with the
actual lines, so pair 1 is (None, b), a mismatch: the result is 1 (the
case fails), not 0 as the claim states. -/
theorem c2_counterexample :
    checkStreams ⟨[['b', '\n']], 1, 1, none, none⟩
      [['a', '\n'], ['b', '\n'], ['c', '\n']] = 1 := by decide

/-- C2 amended: because `start` skips index-aligned pairs from both sides,
the expected text must carry a placeholder entry for each skipped index;
with text=[x, b] for any line x, start=1, count=1 and actual lines
[a, b, c], `check_streams` compares only pair 1 (b against b) and returns
0, never reading x and never reaching line 2. -/
theorem c2_amended (x : List Char) :
    checkStreams ⟨[x, ['b', '\n']], 1, 1, none, none⟩
      [['a', '\n'], ['b', '\n'], ['c', '\n']] = 0 := by
  show checkLoop 1 1 0 _ = 0
  simp [zipLongest, checkLoop]

/-- C5 counterexample: with empty=true asserted, nonempty expected text and
an actually empty stream, the claim says the line pass is skipped and the
result is 0; the code falls through to the line pass, pairs the expected
line with None, and returns 1. -/
theorem c5_counterexample :
    checkStreams ⟨[['a', '\n']], 0, -1, some true, none⟩ [] = 1 := by decide

/-- C5 amended: the emptiness assertion only short-circuits on violation;
when it is satisfied (empty=true with an empty stream, or empty=false with
a nonempty stream) `check_streams` still runs the line-by-line pass, so
confirmed emptiness does not by itself yield 0. -/
theorem c5_amended (expected : OutStream) (received : List (List Char))
    (h : (expected.empty = some true ∧ received = []) ∨
      (expected.empty = some false ∧ received ≠ [])) :
    checkStreams expected received =
      checkLoop expected.start expected.count 0 (zipLongest expected.text received) := by
  rcases h with ⟨hb, hr⟩ | ⟨hb, hr⟩ <;> simp [checkStreams, hb, hr]

/-- Witness for C5 amended: empty=true with an empty stream still runs the
line pass over the declared text. -/
theorem c5_amended_witness :
    ((⟨[['a', '\n']], 0, -1, some true, none⟩ : OutStream).empty = some true ∧
        ([] : List (List Char)) = []) ∧
      checkStreams ⟨[['a', '\n']], 0, -1, some true, none⟩ [] =
        checkLoop 0 (-1) 0 (zipLongest [['a', '\n']] []) :=
  ⟨⟨rfl, rfl⟩, c5_amended ⟨[['a', '\n']], 0, -1, some true, none⟩ [] (Or.inl ⟨rfl, rfl⟩)⟩

/-- C6 counterexample: with count=0 the break condition
`line_number - start + 1 == count` can never fire (the left side is at
least 1 for every compared line), so count=0 does not compare zero lines:
here line 0 is compared, mismatches, and the result is 1, not 0. -/
theorem c6_counterexample :
    checkStreams ⟨[['a']], 0, 0, none, none⟩ [['b']] = 1 := by decide

theorem zipLongest_take (k : Nat) :
    ∀ a b : List (List Char),
      zipLongest (a.take k) (b.take k) = (zipLongest a b).take k := by
  induction k with
  | zero => intro a b; cases a <;> simp [zipLongest]
  | succ k ih =>
    intro a b
    cases a with
    | nil => simp [zipLongest, List.map_take]
    | cons x xs =>
      cases b with
      | nil =>
        simp only [List.take_succ_cons, zipLongest, List.take_nil]
        have h := ih xs []
        simp only [List.take_nil] at h
        rw [h]
      | cons y ys => simp only [List.take_succ_cons, zipLongest]; rw [ih xs ys]

theorem checkLoop_take (start : Nat) (count : Int) (hc : 1 ≤ count) :
    ∀ (l : List (Option (List Char) × Option (List Char))) (n k : Nat),
      1 ≤ k → (n : Int) + k = (start : Int) + count →
      checkLoop start count n (l.take k) = checkLoop start count n l := by
  intro l
  induction l with
  | nil => simp
  | cons p rest ih =>
    intro n k hk hnk
    obtain ⟨k', rfl⟩ : ∃ k', k = k' + 1 := ⟨k - 1, by omega⟩
    rw [List.take_succ_cons]
    show checkLoop start count n (p :: rest.take k') = checkLoop start count n (p :: rest)
    by_cases h1 : n < start
    · rw [checkLoop, if_pos h1, checkLoop, if_pos h1]
      exact ih (n + 1) k' (by omega) (by push_cast at hnk ⊢; omega)
    · by_cases h2 : p.1 ≠ p.2
      · rw [checkLoop, if_neg h1, if_pos h2, checkLoop, if_neg h1, if_pos h2]
      · by_cases h3 : (n : Int) - (start : Int) + 1 = count
        · rw [checkLoop, if_neg h1, if_neg h2, if_pos h3,
            checkLoop, if_neg h1, if_neg h2, if_pos h3]
        · rw [checkLoop, if_neg h1, if_neg h2, if_neg h3,
            checkLoop, if_neg h1, if_neg h2, if_neg h3]
          exact ih (n + 1) k' (by omega) (by push_cast at hnk ⊢; omega)

/-- C6 amended: for every expectation with count >= 1 the loop compares at
most `count` pairs at indices >= start and stops after the count-th
compared line, so lines at indices >= start + count on either side never
influence the result; count = 0, however, behaves like the unbounded
default and compares until a sequence is exhausted or a mismatch occurs. -/
theorem c6_amended (expected : OutStream) (received : List (List Char))
    (hc : 1 ≤ expected.count) :
    checkStreams expected received =
      checkStreams
        ⟨expected.text.take (expected.start + expected.count.toNat),
          expected.start, expected.count, expected.empty, expected.file⟩
        (received.take (expected.start + expected.count.toNat)) := by
  have hk : 1 ≤ expected.start + expected.count.toNat := by omega
  have hcast : ((expected.start + expected.count.toNat : Nat) : Int) =
      (expected.start : Int) + expected.count := by
    push_cast
    omega
  have hloop :
      checkLoop expected.start expected.count 0
        (zipLongest expected.text received) =
      checkLoop expected.start expected.count 0
        (zipLongest (expected.text.take (expected.start + expected.count.toNat))
          (received.take (expected.start + expected.count.toNat))) := by
    rw [zipLongest_take]
    exact (checkLoop_take expected.start expected.count hc _ 0 _ hk (by omega)).symm
  have hrecv : received.take (expected.start + expected.count.toNat) = [] ↔
      received = [] := by
    cases received with
    | nil => simp
    | cons x t => simp [List.take_eq_nil_iff]; omega
  match hemp : expected.empty with
  | none => simpa [checkStreams, hemp] using hloop
  | some b =>
    simp only [checkStreams, hemp]
    by_cases hb : b
    · by_cases hr : received = []
      · simp [hb, hr, hrecv.mpr hr]
        simpa [hr] using hloop
      · simp [hb, hr, (not_iff_not.mpr hrecv).mpr hr]
    · by_cases hr : received = []
      · simp [hb, hr, hrecv.mpr hr]
      · simp [hb, hr, (not_iff_not.mpr hrecv).mpr hr]
        simpa using hloop

/-- Witness for C6 amended: with count=1 the second actual line is
irrelevant: truncating both sides to start+count lines preserves the
result. -/
theorem c6_amended_witness :
    1 ≤ ((⟨[['a']], 0, 1, none, none⟩ : OutStream)).count ∧
      checkStreams ⟨[['a']], 0, 1, none, none⟩ [['a'], ['z']] =
        checkStreams ⟨[['a']].take 1, 0, 1, none, none⟩ ([['a'], ['z']].take 1) :=
  ⟨by decide, c6_amended ⟨[['a']], 0, 1, none, none⟩ [['a'], ['z']] (by decide)⟩

/-- Python exceptions that the embedded `TestCase.execute` can raise:
NameError (an access to the unassigned local `proc` after a timeout),
FileNotFoundError (an `open` or `Image.open` on a missing path) and
KeyError (a missing mandatory dictionary key). -/
inductive PyError
  | nameError
  | fileNotFound
  | keyError
deriving DecidableEq

/-- Source: the relevant fields of the completed-process object returned
by `subprocess.run` (stdout and stderr already split into lines with
their terminators kept). -/
structure ProcResult where
  returncode : Int
  stdout : List (List Char)
  stderr : List (List Char)
deriving DecidableEq

/-- The file system visible to a test case: path to file lines. -/
def FileSys : Type := (List Char) → Option (List (List Char))

/-- Access to the local `proc`: after a timeout `subprocess.run` raised
before assigning it, so any later `proc.` access raises NameError. -/
def getProc (proc : Option ProcResult) : Except PyError ProcResult :=
  match proc with
  | none => Except.error PyError.nameError
  | some p => Except.ok p

/-- Source: `open(path)`, raising FileNotFoundError on a missing path. -/
def openF (fs : FileSys) (f : List Char) : Except PyError (List (List Char)) :=
  match fs f with
  | none => Except.error PyError.fileNotFound
  | some c => Except.ok c

/-- Source (`TestCase.execute`, lines 142-144): the check
`if self.return_code and int(self.return_code) != proc.returncode`; a
declared 0 is falsy, so the comparison (and the `proc` access) is skipped
for it. -/
def returnCodeStep (return_code : Option Int) (proc : Option ProcResult)
    (errors : Nat) : Except PyError Nat :=
  match return_code with
  | some rc =>
    if rc ≠ 0 then
      match getProc proc with
      | Except.error e => Except.error e
      | Except.ok p => Except.ok (if rc ≠ p.returncode then errors + 1 else errors)
    else Except.ok errors
  | none => Except.ok errors

/-- Source: the per-ofstream comparison type, `text` by default. -/
inductive OfsType
  | text
  | binary
  | image
deriving DecidableEq

/-- Source (`TestCase._setup_ofstream`): a declared output file: the
comparison type, the optional reference file, the path of the artifact the
subprocess must produce, and the usual OutStream window fields. -/
structure Ofstream where
  ftype : OfsType
  file : Option (List Char)
  testFile : List Char
  text : List (List Char)
  start : Nat
  count : Int
  empty : Option Bool
deriving DecidableEq

/-- Source (`TestCase.execute`, one iteration of the ofstream loop): text
and binary ofstreams replace the expected text by the reference file's
content when `file` is declared and compare against the opened artifact
(binary differs from text only in the read mode); an image ofstream opens
both files and counts one error when the pixel difference has a nonempty
bounding box, abstracted by `differ`. Opening a missing path raises
FileNotFoundError; an image ofstream without `file` raises KeyError. The
artifact is passed to `check_streams` as its lines. -/
def checkOfstream (fs : FileSys) (differ : List Char → List Char → Bool)
    (o : Ofstream) : Except PyError Nat :=
  match o.ftype with
  | OfsType.image =>
    match o.file with
    | none => Except.error PyError.keyError
    | some f =>
      match fs f with
      | none => Except.error PyError.fileNotFound
      | some _ =>
        match fs o.testFile with
        | none => Except.error PyError.fileNotFound
        | some _ => Except.ok (if differ f o.testFile then 1 else 0)
  | _ =>
    match (match o.file with
           | some f => openF fs f
           | none => Except.ok o.text) with
    | Except.error e => Except.error e
    | Except.ok t =>
      match openF fs o.testFile with
      | Except.error e => Except.error e
      | Except.ok actual =>
        Except.ok (checkStreams ⟨t, o.start, o.count, o.empty, o.file⟩ actual)

/-- Source (`TestCase.execute`, lines 154-173): the `try`/`for` over the
ofstreams with the running error count threaded through; the first
FileNotFoundError is caught by the surrounding `except`, which adds one
error and leaves the remaining ofstreams unchecked; any other exception
propagates. -/
def ofstreamGo (fs : FileSys) (differ : List Char → List Char → Bool) :
    List Ofstream → Nat → Except PyError Nat
  | [], acc => Except.ok acc
  | o :: rest, acc =>
    match checkOfstream fs differ o with
    | Except.ok n => ofstreamGo fs differ rest (acc + n)
    | Except.error PyError.fileNotFound => Except.ok (acc + 1)
    | Except.error e => Except.error e

/-- Source (`TestCase.execute`): the whole check phase after
`subprocess.run`. `proc = none` models a TimeoutExpired run: the except
branch adds one error but leaves the local `proc` unassigned. Then, in
source order: the return-code check, the optional replacement of the
stdout/stderr expected text by a reference file, the two stream checks on
`proc.stdout`/`proc.stderr`, the ofstream phase, the plugin checks
(`extraOk` lists each plugin's boolean result), and the final collapse
`int(errors > 0)`. -/
def executeCase (fs : FileSys) (differ : List Char → List Char → Bool)
    (return_code : Option Int) (stdoutExp stderrExp : OutStream)
    (ofstreams : List Ofstream) (extraOk : List Bool)
    (proc : Option ProcResult) : Except PyError Nat :=
  match returnCodeStep return_code proc (if proc.isNone then 1 else 0) with
  | Except.error e => Except.error e
  | Except.ok errors1 =>
    match (match stdoutExp.file with
           | some f => openF fs f
           | none => Except.ok stdoutExp.text) with
    | Except.error e => Except.error e
    | Except.ok outT =>
      match (match stderrExp.file with
             | some f => openF fs f
             | none => Except.ok stderrExp.text) with
      | Except.error e => Except.error e
      | Except.ok errT =>
        match getProc proc with
        | Except.error e => Except.error e
        | Except.ok p =>
          match ofstreamGo fs differ ofstreams
              (errors1
                + checkStreams
                    ⟨outT, stdoutExp.start, stdoutExp.count, stdoutExp.empty,
                      stdoutExp.file⟩ p.stdout
                + checkStreams
                    ⟨errT, stderrExp.start, stderrExp.count, stderrExp.empty,
                      stderrExp.file⟩ p.stderr) with
          | Except.error e => Except.error e
          | Except.ok errors3 =>
            if errors3 + (extraOk.filter fun b => !b).length > 0 then Except.ok 1
            else Except.ok 0

/-- C3 is a code bug: on a timed-out run the except branch counts one
error, but the local `proc` was never assigned, so the first later
`proc.` access (or an earlier missing reference file) raises instead of
letting `execute` return 1: for every configuration, `executeCase` on a
timed-out run ends in an exception, never in a normal result. -/
theorem execute_timeout_raises (fs : FileSys) (differ : List Char → List Char → Bool)
    (return_code : Option Int) (stdoutExp stderrExp : OutStream)
    (ofstreams : List Ofstream) (extraOk : List Bool) :
    ∃ e, executeCase fs differ return_code stdoutExp stderrExp ofstreams extraOk
      none = Except.error e := by
  unfold executeCase
  repeat' split
  any_goals exact ⟨_, rfl⟩
  all_goals simp_all [getProc]

/-- C4 is a code bug: a declared expected return code 0 is falsy in the
`if self.return_code and ...` guard, so a process exiting 2 produces no
ReturnCodeMismatch failure: the whole case passes with result 0. -/
theorem execute_return_code_zero_skipped :
    executeCase (fun _ => none) (fun _ _ => false) (some 0)
      ⟨[], 0, -1, none, none⟩ ⟨[], 0, -1, none, none⟩ [] []
      (some ⟨2, [], []⟩) = Except.ok 0 := rfl

theorem returnCodeStep_ok (return_code : Option Int) (p : ProcResult) (errors : Nat) :
    ∃ e1, returnCodeStep return_code (some p) errors = Except.ok e1 := by
  rcases return_code with _ | rc
  · exact ⟨errors, rfl⟩
  · unfold returnCodeStep
    by_cases h : rc ≠ 0 <;> simp [h, getProc]

/-- C9: when the ofstream loop reaches a text ofstream whose declared
artifact was not produced (its reference text inline, its test-file absent
from the file system), the raised FileNotFoundError is caught once, adding
exactly one error, the remaining ofstreams are skipped (the result does
not depend on them), and `execute` still returns normally with 1, so the
later plugin phase is reached. -/
theorem execute_missing_artifact (fs : FileSys) (differ : List Char → List Char → Bool)
    (return_code : Option Int) (stdoutExp stderrExp : OutStream)
    (pre rest : List Ofstream) (m : Ofstream) (extraOk : List Bool) (p : ProcResult)
    (hOut : stdoutExp.file = none) (hErr : stderrExp.file = none)
    (hpre : ∀ o ∈ pre, ∃ n, checkOfstream fs differ o = Except.ok n)
    (hType : m.ftype = OfsType.text) (hFile : m.file = none)
    (hMissing : fs m.testFile = none) :
    (∀ acc, ∃ a, ofstreamGo fs differ pre acc = Except.ok a ∧
        ofstreamGo fs differ (pre ++ m :: rest) acc = Except.ok (a + 1)) ∧
      executeCase fs differ return_code stdoutExp stderrExp (pre ++ m :: rest)
        extraOk (some p) = Except.ok 1 := by
  have hm : checkOfstream fs differ m = Except.error PyError.fileNotFound := by
    simp [checkOfstream, hType, hFile, openF, hMissing]
  have hgo : ∀ (l : List Ofstream),
      (∀ o ∈ l, ∃ n, checkOfstream fs differ o = Except.ok n) →
      ∀ acc, ∃ a, ofstreamGo fs differ l acc = Except.ok a ∧
        ofstreamGo fs differ (l ++ m :: rest) acc = Except.ok (a + 1) := by
    intro l
    induction l with
    | nil =>
      intro _ acc
      refine ⟨acc, rfl, ?_⟩
      simp only [List.nil_append, ofstreamGo, hm]
    | cons o t ih =>
      intro hl acc
      obtain ⟨n, hn⟩ := hl o (by simp)
      obtain ⟨a, ha1, ha2⟩ := ih (fun x hx => hl x (by simp [hx])) (acc + n)
      refine ⟨a, ?_, ?_⟩
      · simp only [ofstreamGo, hn]
        exact ha1
      · simp only [List.cons_append, ofstreamGo, hn]
        exact ha2
  refine ⟨hgo pre hpre, ?_⟩
  unfold executeCase
  obtain ⟨e1, he1⟩ := returnCodeStep_ok return_code p
    (if (some p : Option ProcResult).isNone then 1 else 0)
  rw [he1, hOut, hErr]
  simp only [getProc]
  obtain ⟨a, _, hgo2⟩ := hgo pre hpre
    (e1
      + checkStreams
          ⟨stdoutExp.text, stdoutExp.start, stdoutExp.count, stdoutExp.empty,
            none⟩ p.stdout
      + checkStreams
          ⟨stderrExp.text, stderrExp.start, stderrExp.count, stderrExp.empty,
            none⟩ p.stderr)
  rw [hgo2]
  show (if a + 1 + (extraOk.filter fun b => !b).length > 0 then
      (Except.ok 1 : Except PyError Nat) else Except.ok 0) = Except.ok 1
  rw [if_pos (by omega)]

/-- Witness for C9: one missing artifact f followed by a second ofstream
g: the phase reports one error, skips g, and the case returns 1. -/
theorem execute_missing_artifact_witness :
    (fun _ : List Char => (none : Option (List (List Char)))) ['f'] = none ∧
      ofstreamGo (fun _ => none) (fun _ _ => false)
        ([] ++ (⟨OfsType.text, none, ['f'], [], 0, -1, none⟩ : Ofstream) ::
          [⟨OfsType.text, none, ['g'], [], 0, -1, none⟩]) 0 = Except.ok 1 ∧
      executeCase (fun _ => none) (fun _ _ => false) none
        ⟨[], 0, -1, none, none⟩ ⟨[], 0, -1, none, none⟩
        ([] ++ (⟨OfsType.text, none, ['f'], [], 0, -1, none⟩ : Ofstream) ::
          [⟨OfsType.text, none, ['g'], [], 0, -1, none⟩]) []
        (some ⟨0, [], []⟩) = Except.ok 1 := by
  have h := execute_missing_artifact (fun _ => none) (fun _ _ => false) none
    ⟨[], 0, -1, none, none⟩ ⟨[], 0, -1, none, none⟩ []
    [⟨OfsType.text, none, ['g'], [], 0, -1, none⟩]
    ⟨OfsType.text, none, ['f'], [], 0, -1, none⟩ [] ⟨0, [], []⟩
    rfl rfl (by intro o ho; simp at ho) rfl rfl rfl
  obtain ⟨a, ha1, ha2⟩ := h.1 0
  have ha : a = 0 := by
    have h0 : ofstreamGo (fun _ => none) (fun _ _ => false) [] 0 = Except.ok 0 := rfl
    rw [h0] at ha1
    injection ha1 with h
    exact h.symm
  refine ⟨rfl, ?_, h.2⟩
  rw [ha] at ha2
  simpa using ha2

/-- Source (`runner.filter_tests`): drop the case if any exclude pattern
matches; keep it if there are no include patterns; otherwise keep it
exactly when some include pattern matches. `search` abstracts
`re.search(pattern, case_name)`. -/
def filter_tests (search : List Char → List Char → Bool) (case_name : List Char)
    (includes excludes : List (List Char)) : Bool :=
  if excludes.any (fun p => search p case_name) then false
  else if includes.isEmpty then true
  else includes.any (fun p => search p case_name)

/-- C7: a case name matching any exclude pattern is dropped even when it
also matches an include pattern; a non-excluded name is kept when no
include patterns are given, and otherwise kept exactly when it matches at
least one include pattern. -/
theorem filter_tests_spec (search : List Char → List Char → Bool)
    (case_name : List Char) (includes excludes : List (List Char)) :
    filter_tests search case_name includes excludes = true ↔
      ((∀ p ∈ excludes, search p case_name = false) ∧
        (includes = [] ∨ ∃ p ∈ includes, search p case_name = true)) := by
  unfold filter_tests
  by_cases hex : excludes.any (fun p => search p case_name)
  · rw [if_pos hex]
    simp only [List.any_eq_true] at hex
    obtain ⟨p, hp, hsp⟩ := hex
    constructor
    · intro h; cases h
    · rintro ⟨hall, _⟩
      rw [hall p hp] at hsp
      cases hsp
  · rw [if_neg hex]
    simp only [List.any_eq_true, not_exists, not_and] at hex
    have hall : ∀ p ∈ excludes, search p case_name = false := by
      intro p hp
      have := hex p
      simp only [hp, true_and] at this
      revert this
      cases search p case_name <;> simp
    by_cases hinc : includes.isEmpty
    · rw [if_pos hinc]
      simp only [List.isEmpty_iff] at hinc
      simp only [hinc, true_or, and_true, true_iff]
      exact hall
    · rw [if_neg hinc]
      simp only [List.isEmpty_iff] at hinc
      simp only [List.any_eq_true, hinc, false_or]
      exact ⟨fun h => ⟨hall, h⟩, fun h => h.2⟩

/-- Source (`runner.TestCase.execute`): the error sources of one executed
case in `runner.py` order: stdout check, stderr check, return-code check,
ofstream checks, plugin results. -/
structure CaseOutcome where
  stdoutErr : Nat
  stderrErr : Nat
  rcErr : Nat
  ofsErrs : List Nat
  extraOk : List Bool

/-- Source (`runner.TestCase.execute`): the accumulated `errors` of one
case before the final collapse. -/
def caseErrors (c : CaseOutcome) : Nat :=
  c.stdoutErr + c.stderrErr + c.rcErr + c.ofsErrs.sum +
    (c.extraOk.filter fun b => !b).length

/-- Source (`runner.TestCase.execute`): the returned `int(errors > 0)`. -/
def runnerExecute (c : CaseOutcome) : Nat :=
  if caseErrors c > 0 then 1 else 0

/-- Source (`runner.test`): `errors += test.execute()` over the filtered
cases; `test()` returns `errors`, which `sys.exit` turns into the process
exit value. -/
def suiteErrors (cs : List CaseOutcome) : Nat :=
  (cs.map runnerExecute).sum

/-- Source (`runner.test`): the final tally line
`{}/{} tests passed!` printed as (passed, total) over the filtered
case count. -/
def suiteTally (cs : List CaseOutcome) : Nat × Nat :=
  (cs.length - suiteErrors cs, cs.length)

theorem suiteErrors_eq_failed (cs : List CaseOutcome) :
    suiteErrors cs = (cs.filter fun c => decide (caseErrors c > 0)).length := by
  induction cs with
  | nil => rfl
  | cons c t ih =>
    simp only [suiteErrors, List.map_cons, List.sum_cons, List.filter_cons] at ih ⊢
    by_cases h : caseErrors c > 0
    · simp [runnerExecute, h, ih]
      omega
    · simp [runnerExecute, h, ih]

/-- C8: the suite run's exit value is the number of executed cases that
failed (each case contributes `int(errors > 0)`, so exactly 1 when it has
any error); it is 0 exactly when every executed case passed, and the tally
line reports (total - failed, total) for the filtered case count. -/
theorem suite_exit_counts_failures (cs : List CaseOutcome) :
    suiteErrors cs = (cs.filter fun c => decide (caseErrors c > 0)).length ∧
      (suiteErrors cs = 0 ↔ ∀ c ∈ cs, caseErrors c = 0) ∧
      suiteTally cs =
        (cs.length - (cs.filter fun c => decide (caseErrors c > 0)).length,
          cs.length) := by
  refine ⟨suiteErrors_eq_failed cs, ?_, ?_⟩
  · rw [suiteErrors_eq_failed cs]
    simp only [List.length_eq_zero, List.filter_eq_nil_iff]
    constructor
    · intro h c hc
      have := h c hc
      simp at this
      omega
    · intro h c hc
      simp [h c hc]
  · unfold suiteTally
    rw [suiteErrors_eq_failed cs]

end Contest
